import Mathlib

/-!
Shallow embedding of the hidrolab-stiff Stiff-diagram core
(`src/streamlit_app.py`): the `normalize` unit-normalisation step and the
`stiff_plot` geometry mapper.  Pandas/NumPy numerics are modelled with exact
rationals; float NaN is `Option.none`; Python exceptions are an `Except`
value.  `log10` on floats is modelled with `Real.logb 10`.
-/

namespace Hidrolab

/-- A pandas concentration cell: a float, a float NaN (also a missing value),
a string that parses as a number, or a string that does not parse. -/
inductive Cell where
  | num (q : ℚ)
  | nan
  | strNum (q : ℚ)
  | strBad (s : String)
deriving DecidableEq, Repr

/-- A Python exception escaping `normalize`. -/
inductive PyErr where
  | valueError (msg : String)
  | keyError (k : String)
  | typeError (msg : String)
deriving DecidableEq, Repr

/-- One row of the editable input table.  The `conc` and `meqL` fields hold
the cells of the columns of those names; a field is meaningful only when the
corresponding column is present in `RawTable.cols`. -/
structure RawRow where
  ion : String
  group : String
  conc : Cell
  meqL : Cell
deriving DecidableEq, Repr

/-- The editable input table: its column names and its rows. -/
structure RawTable where
  cols : List String
  rows : List RawRow
deriving DecidableEq, Repr

/-- One row of the normalised table returned by `normalize`:
ion symbol, cleaned group string, and the meq/L value (`none` is NaN). -/
structure CanonRow where
  ion : String
  group : String
  meqL : Option ℚ
deriving DecidableEq, Repr

/-- Molecular weights of the 8 supported ions (the `MW` dict). -/
def MWq : String → ℚ
  | "Na" => 22.989769
  | "Ca" => 40.078
  | "Mg" => 24.305
  | "Fe" => 55.845
  | "Cl" => 35.453
  | "HCO3" => 61.016
  | "SO4" => 96.06
  | "CO3" => 60.008
  | _ => 0

/-- Valences of the 8 supported ions (the `VAL` dict). -/
def VALq : String → ℚ
  | "Na" => 1
  | "Ca" => 2
  | "Mg" => 2
  | "Fe" => 2
  | "Cl" => 1
  | "HCO3" => 1
  | "SO4" => 2
  | "CO3" => 2
  | _ => 0

/-- The key list of the `MW` dict (Python dicts preserve insertion order). -/
def MWkeys : List String := ["Na", "Ca", "Mg", "Fe", "Cl", "HCO3", "SO4", "CO3"]

/-- `FACTOR.get(ion, np.nan)`: mg/L → meq/L factor, NaN for unknown ions. -/
def FACTOR (ion : String) : Option ℚ :=
  if ion ∈ MWkeys then some (VALq ion / MWq ion) else none

/-- Python multiplication `r["Conc"] * factor` where `factor` is a float or
NaN: float times float is a float, anything times NaN is NaN, and a string
times a float raises `TypeError`. -/
def mulFactor (c : Cell) (f : Option ℚ) : Except PyErr (Option ℚ) :=
  match c with
  | .num q => .ok (f.map (fun v => q * v))
  | .nan => .ok none
  | .strNum _ => .error (.typeError "can't multiply sequence by non-int of type 'float'")
  | .strBad _ => .error (.typeError "can't multiply sequence by non-int of type 'float'")

/-- `pd.to_numeric(column, errors="coerce")` on one cell: numbers and
numeric strings keep their value, everything else becomes NaN. -/
def toNumericCoerce : Cell → Option ℚ
  | .num q => some q
  | .nan => none
  | .strNum q => some q
  | .strBad _ => none

/-- Python `str.lower()`, modelled character by character. -/
def strLower (s : String) : String := ⟨s.data.map Char.toLower⟩

/-- Python `str.strip()`: drop whitespace from both ends. -/
def strTrim (s : String) : String :=
  ⟨((s.data.dropWhile Char.isWhitespace).reverse.dropWhile Char.isWhitespace).reverse⟩

/-- Line 30 of the source: any column whose lower-cased name is `group` is
renamed `c.strip().title()`, which is exactly `"Group"` for such a column. -/
def retitle (cols : List String) : List String :=
  cols.map (fun c => if strLower c = "group" then "Group" else c)

/-- The keys of the `lower` dict of line 33: the lower-cased column names. -/
def lowerCols (cols : List String) : List String := cols.map (fun c => strLower c)

/-- Sequence a row-wise fallible computation over the rows, stopping at the
first raised exception (models `df.apply(..., axis=1)`). -/
def mapExcept (f : RawRow → Except PyErr (Option ℚ)) :
    List RawRow → Except PyErr (List (Option ℚ))
  | [] => .ok []
  | r :: rs =>
    match f r with
    | .error e => .error e
    | .ok v =>
      match mapExcept f rs with
      | .error e => .error e
      | .ok vs => .ok (v :: vs)

/-- `normalize(df_edit, unit)` of the source, lines 27–56.  Checks the
schema (case-insensitively), converts the concentration column to meq/L
(`Conc * FACTOR` in mg/L mode, `pd.to_numeric(..., errors="coerce")` in
meq/L mode), keeps only rows whose ion is a key of `MW`, and lower-cases
the group strings.  Exact-name column accesses (`df["Conc"]`, `df["meqL"]`,
`df["Ion"]`) raise `KeyError` when the column exists only under another
casing. -/
def normalize (t : RawTable) (unit : String) : Except PyErr (List CanonRow) :=
  let cols := retitle t.cols
  let low := lowerCols cols
  if "ion" ∉ low then .error (.valueError "Falta columna 'Ion'")
  else if "group" ∉ low then .error (.valueError "Falta columna 'Group'")
  else
    let vals : Except PyErr (List (Option ℚ)) :=
      if unit = "mg/L" then
        if "conc" ∉ low then .error (.valueError "Con unit='mg/L' se espera columna 'Conc'")
        else if "Conc" ∉ cols then .error (.keyError "Conc")
        else
          mapExcept
            (fun r =>
              if "Ion" ∉ cols then .error (.keyError "Ion")
              else mulFactor r.conc (FACTOR r.ion))
            t.rows
      else
        if "meql" ∉ low then .error (.valueError "Con unit='meq/L' se espera columna 'meqL'")
        else if "meqL" ∉ cols then .error (.keyError "meqL")
        else .ok (t.rows.map (fun r => toNumericCoerce r.meqL))
    match vals with
    | .error e => .error e
    | .ok vs =>
      if "Ion" ∉ cols then .error (.keyError "Ion")
      else
        let kept := (t.rows.zip vs).filter (fun p => p.1.ion ∈ MWkeys)
        .ok (kept.map (fun p => ⟨p.1.ion, strLower (strTrim p.1.group), p.2⟩))

/-- Fixed cation row order (the `CAT_ORDER` constant). -/
def CAT_ORDER : List String := ["Na", "Ca", "Mg", "Fe"]

/-- Fixed anion row order (the `ANI_ORDER` constant). -/
def ANI_ORDER : List String := ["Cl", "HCO3", "SO4", "CO3"]

/-- The `y_left` dict: fixed vertical rank of each cation (only ever read at
the four cation keys; the default is never reached by `stiff_plot`). -/
def y_left : String → ℚ
  | "Na" => 8
  | "Ca" => 7
  | "Mg" => 6
  | "Fe" => 5
  | _ => 0

/-- The `y_right` dict: fixed vertical rank of each anion. -/
def y_right : String → ℚ
  | "Cl" => 8
  | "HCO3" => 7
  | "SO4" => 6
  | "CO3" => 5
  | _ => 0

/-- Rank of an ion inside an order list (the categorical code used by
`pd.Categorical(..., ordered=True)`). -/
def rankIn (ord : List String) (i : String) : ℕ := ord.indexOf i

/-- Insert a row into a list sorted by categorical rank, before the first
row of rank not smaller (so the overall sort is stable). -/
def insRank (ord : List String) (r : CanonRow) : List CanonRow → List CanonRow
  | [] => [r]
  | s :: ss =>
    if rankIn ord r.ion ≤ rankIn ord s.ion then r :: s :: ss
    else s :: insRank ord r ss

/-- `df.sort_values("Ion")` on the categorical ion column: sort the rows by
rank in the order list (stable determinisation of the pandas sort). -/
def sortByRank (ord : List String) : List CanonRow → List CanonRow
  | [] => []
  | r :: rs => insRank ord r (sortByRank ord rs)

/-- Cation-side selection, line 64: rows whose group is `cation` and whose
ion is in `CAT_ORDER`. -/
def catSel (rs : List CanonRow) : List CanonRow :=
  rs.filter (fun r => r.group == "cation" && CAT_ORDER.contains r.ion)

/-- Anion-side selection, line 65. -/
def aniSel (rs : List CanonRow) : List CanonRow :=
  rs.filter (fun r => r.group == "anion" && ANI_ORDER.contains r.ion)

/-- The cation rows in rank order. -/
def catSorted (rs : List CanonRow) : List CanonRow := sortByRank CAT_ORDER (catSel rs)

/-- The anion rows in rank order. -/
def aniSorted (rs : List CanonRow) : List CanonRow := sortByRank ANI_ORDER (aniSel rs)

/-- Base-10 logarithm of a rational concentration, as a real number
(models NumPy `log10` on floats). -/
noncomputable def log10 (q : ℚ) : ℝ := Real.logb 10 (q : ℝ)

/-- Lines 79–80: `np.where(meq > 0, np.abs(np.log10(meq) + 1.0), 0.0)` on
one value.  NaN compares false against 0, so NaN and non-positive values
both take the 0 branch. -/
noncomputable def distOf : Option ℚ → ℝ
  | some q => if 0 < q then |log10 q + 1| else 0
  | none => 0

/-- One plotly `Scatter` trace: name, x and y vertex lists, and the
per-vertex hover customdata `(ion, meqL)`. -/
structure Trace where
  name : String
  x : List ℝ
  y : List ℚ
  customdata : List (String × Option ℚ)

/-- The positive meq/L values among the plotted rows, line 86
(`meq_all[meq_all > 0]`; NaN is excluded since NaN > 0 is false). -/
def posMeq (rs : List CanonRow) : List ℚ :=
  (catSorted rs ++ aniSorted rs).filterMap
    (fun r =>
      match r.meqL with
      | some q => if 0 < q then some q else none
      | none => none)

/-- Maximum of a list of reals, the head seeding the fold
(`np.nanmax` on a list that contains no NaN). -/
def maxNE : List ℝ → ℝ
  | [] => 0
  | h :: t => t.foldl max h

/-- Line 87: `int(np.ceil(np.nanmax(np.abs(np.log10(meq_pos) + 1.0))))`
when some positive concentration exists, otherwise 1. -/
noncomputable def maxDec (rs : List CanonRow) : ℤ :=
  if posMeq rs = [] then 1
  else Int.ceil (maxNE ((posMeq rs).map (fun q => |log10 q + 1|)))

/-- The integers from `lo` to `hi` inclusive (`range(lo, hi + 1)`). -/
def intRange (lo hi : ℤ) : List ℤ :=
  (List.range (hi - lo + 1).toNat).map (fun i : ℕ => lo + (i : ℤ))

/-- Line 89: `list(range(-max_dec, max_dec + 1))`. -/
def tickvalsOf (m : ℤ) : List ℤ := intRange (-m) m

/-- Python percent-g formatting of `10**k` for a natural exponent `k`:
plain digits below 10^6, exponent form `1e+NN` from 10^6 on. -/
def gfmtPow10 (k : ℕ) : String :=
  if k < 6 then toString ((10 : ℕ) ^ k)
  else "1e+" ++ (if k < 10 then "0" ++ toString k else toString k)

/-- Line 91: the label of tick `v` is the string 0 at the centre and the
percent-g rendering of `10**(abs(v)-1)` elsewhere. -/
def tickLabel (v : ℤ) : String :=
  if v = 0 then "0" else gfmtPow10 (v.natAbs - 1)

/-- The cation trace, lines 96–101: x is minus the log distance, y the
fixed rank, customdata the `(ion, meqL)` pairs, all in rank order. -/
noncomputable def catTraceOf (rs : List CanonRow) : Trace :=
  { name := "Cationes"
    x := (catSorted rs).map (fun r => -distOf r.meqL)
    y := (catSorted rs).map (fun r => y_left r.ion)
    customdata := (catSorted rs).map (fun r => (r.ion, r.meqL)) }

/-- The anion trace, lines 103–108: x is plus the log distance. -/
noncomputable def aniTraceOf (rs : List CanonRow) : Trace :=
  { name := "Aniones"
    x := (aniSorted rs).map (fun r => distOf r.meqL)
    y := (aniSorted rs).map (fun r => y_right r.ion)
    customdata := (aniSorted rs).map (fun r => (r.ion, r.meqL)) }

/-- The renderer-agnostic scene assembled by `stiff_plot`: the traces in
the order they are added to the figure, the centre reference line, the
x-axis tick positions and labels, the y-axis tick labels, the right-margin
ion labels and the two side titles. -/
structure Scene where
  title : String
  traces : List Trace
  centerLineX : ℚ
  tickvals : List ℤ
  ticktext : List String
  yTickVals : List ℚ
  yTickText : List String
  rightLabels : List (String × ℚ)
  sideTitles : List (String × ℚ)

/-- `stiff_plot(df, title)` of the source, lines 62–141, as a scene
description. -/
noncomputable def stiff_plot (rs : List CanonRow) (title : String) : Scene :=
  { title := title
    traces := [catTraceOf rs, aniTraceOf rs]
    centerLineX := 0
    tickvals := tickvalsOf (maxDec rs)
    ticktext := (tickvalsOf (maxDec rs)).map tickLabel
    yTickVals := [8, 7, 6, 5]
    yTickText := ["Na", "Ca", "Mg", "Fe"]
    rightLabels := ANI_ORDER.map (fun i => (i, y_right i))
    sideTitles := [("Cationes", (13 : ℚ) / 2), ("Aniones", (13 : ℚ) / 2)] }

/-- Modelled from the spec, for comparison with the source's line
assembly: a single polyline visiting every cation point in rank order,
then a mandatory centre vertex at `x = 0` with y the midpoint of the
innermost cation rank (Fe, 5) and innermost anion rank (CO3, 5), then
every anion point in rank order, with a placeholder hover entry for the
centre vertex. -/
noncomputable def specLineAssembly (rs : List CanonRow) : Trace :=
  { name := "butterfly"
    x := (catSorted rs).map (fun r => -distOf r.meqL) ++ [0] ++
      (aniSorted rs).map (fun r => distOf r.meqL)
    y := (catSorted rs).map (fun r => y_left r.ion) ++ [(5 + 5) / 2] ++
      (aniSorted rs).map (fun r => y_right r.ion)
    customdata := (catSorted rs).map (fun r => (r.ion, r.meqL)) ++ [("", none)] ++
      (aniSorted rs).map (fun r => (r.ion, r.meqL)) }

/-! ## Helper lemmas -/

theorem insRank_perm (ord : List String) (r : CanonRow) (l : List CanonRow) :
    (insRank ord r l).Perm (r :: l) := by
  induction l with
  | nil => exact .refl _
  | cons s ss ih =>
    simp only [insRank]
    split
    · exact .refl _
    · exact (ih.cons s).trans (List.Perm.swap r s ss)

theorem sortByRank_perm (ord : List String) (l : List CanonRow) :
    (sortByRank ord l).Perm l := by
  induction l with
  | nil => exact .refl _
  | cons r rs ih => exact (insRank_perm ord r (sortByRank ord rs)).trans (ih.cons r)

theorem mem_insRank {ord : List String} {r a : CanonRow} {l : List CanonRow} :
    a ∈ insRank ord r l ↔ a = r ∨ a ∈ l := by
  rw [(insRank_perm ord r l).mem_iff, List.mem_cons]

theorem insRank_pairwise (ord : List String) (r : CanonRow) {l : List CanonRow}
    (h : l.Pairwise (fun a b => rankIn ord a.ion ≤ rankIn ord b.ion)) :
    (insRank ord r l).Pairwise (fun a b => rankIn ord a.ion ≤ rankIn ord b.ion) := by
  induction l with
  | nil => simp [insRank]
  | cons s ss ih =>
    rcases List.pairwise_cons.mp h with ⟨hs, hss⟩
    simp only [insRank]
    split
    case isTrue hle =>
      refine List.pairwise_cons.mpr ⟨?_, h⟩
      intro b hb
      rcases List.mem_cons.mp hb with rfl | hb
      · exact hle
      · exact hle.trans (hs b hb)
    case isFalse hgt =>
      refine List.pairwise_cons.mpr ⟨?_, ih hss⟩
      intro b hb
      rcases mem_insRank.mp hb with rfl | hb
      · exact Nat.le_of_not_le hgt
      · exact hs b hb

theorem sortByRank_pairwise (ord : List String) (l : List CanonRow) :
    (sortByRank ord l).Pairwise (fun a b => rankIn ord a.ion ≤ rankIn ord b.ion) := by
  induction l with
  | nil => simp [sortByRank]
  | cons r rs ih => exact insRank_pairwise ord r ih

theorem mem_intRange {lo hi v : ℤ} : v ∈ intRange lo hi ↔ lo ≤ v ∧ v ≤ hi := by
  unfold intRange
  rw [List.mem_map]
  constructor
  · rintro ⟨i, hmem, rfl⟩
    have hlt := List.mem_range.mp hmem
    omega
  · intro ⟨h1, h2⟩
    exact ⟨(v - lo).toNat, List.mem_range.mpr (by omega), by omega⟩

/-- Unfolding `normalize` on a table with columns exactly
`Ion, Group, Conc` in mg/L mode. -/
theorem normalize_mg_std (rs : List RawRow) :
    normalize ⟨["Ion", "Group", "Conc"], rs⟩ "mg/L"
      = match mapExcept (fun r => mulFactor r.conc (FACTOR r.ion)) rs with
        | .error e => .error e
        | .ok vs => .ok (((rs.zip vs).filter (fun p => p.1.ion ∈ MWkeys)).map
            (fun p => ⟨p.1.ion, strLower (strTrim p.1.group), p.2⟩)) := rfl

/-! ## C1 -/

/-- C5: for every known ion and numeric concentration `c`, mg/L mode
derives the meq/L value as `c` divided by the equivalent weight
`MW/VAL`, which equals `c * VAL / MW` via the 8-ion weight/valence
tables, and `FACTOR` is exactly `VAL/MW`. -/
theorem C5_equivalent_weight (ion : String) (c : ℚ) (h : ion ∈ MWkeys) :
    normalize ⟨["Ion", "Group", "Conc"], [⟨ion, "cation", .num c, .nan⟩]⟩ "mg/L"
      = .ok [⟨ion, "cation", some (c / (MWq ion / VALq ion))⟩] ∧
    c / (MWq ion / VALq ion) = c * VALq ion / MWq ion ∧
    FACTOR ion = some (VALq ion / MWq ion) := by
  have hdiv : c / (MWq ion / VALq ion) = c * (VALq ion / MWq ion) := by
    rw [div_div_eq_mul_div, mul_div_assoc]
  refine ⟨?_, by rw [hdiv, mul_div_assoc], by simp [FACTOR, h]⟩
  rw [normalize_mg_std]
  simp only [mapExcept, mulFactor, FACTOR, h, if_true, ite_true, Option.map_some]
  fin_cases h <;>
    simp_all [MWkeys, strLower, strTrim, hdiv, List.filter]

/-- C5 witness: the conversion at ion `Na` with 2 mg/L. -/
theorem C5_equivalent_weight_witness :
    ("Na" ∈ MWkeys) ∧
    (normalize ⟨["Ion", "Group", "Conc"], [⟨"Na", "cation", .num 2, .nan⟩]⟩ "mg/L"
        = .ok [⟨"Na", "cation", some ((2 : ℚ) / (MWq "Na" / VALq "Na"))⟩] ∧
      (2 : ℚ) / (MWq "Na" / VALq "Na") = 2 * VALq "Na" / MWq "Na" ∧
      FACTOR "Na" = some (VALq "Na" / MWq "Na")) :=
  ⟨by decide, C5_equivalent_weight "Na" 2 (by decide)⟩

/-! ## C6 -/

/-- The guarded transform sends NaN and every non-positive value to 0. -/
theorem distOf_nonpos {v : Option ℚ} (h : v = none ∨ ∃ q, v = some q ∧ q ≤ 0) :
    distOf v = 0 := by
  rcases h with rfl | ⟨q, rfl, hq⟩
  · rfl
  · simp [distOf, not_lt.mpr hq]

theorem trace_x_center (rs : List CanonRow) (ttl : String) :
    ∀ tr ∈ (stiff_plot rs ttl).traces, ∀ pr ∈ tr.x.zip tr.customdata,
      (pr.2.2 = none ∨ ∃ q, pr.2.2 = some q ∧ q ≤ 0) → pr.1 = 0 := by
  intro tr htr pr hpr h0
  have htr2 : tr = catTraceOf rs ∨ tr = aniTraceOf rs := by
    simpa [stiff_plot] using htr
  rcases htr2 with rfl | rfl
  · rw [show (catTraceOf rs).x.zip (catTraceOf rs).customdata
        = (catSorted rs).map (fun r => (-distOf r.meqL, (r.ion, r.meqL)))
      from List.zip_map' _ _ _] at hpr
    obtain ⟨r, hr, rfl⟩ := List.mem_map.mp hpr
    simp only at h0 ⊢
    rw [distOf_nonpos h0, neg_zero]
  · rw [show (aniTraceOf rs).x.zip (aniTraceOf rs).customdata
        = (aniSorted rs).map (fun r => (distOf r.meqL, (r.ion, r.meqL)))
      from List.zip_map' _ _ _] at hpr
    obtain ⟨r, hr, rfl⟩ := List.mem_map.mp hpr
    simp only at h0 ⊢
    rw [distOf_nonpos h0]

/-- C7: a plotted record with concentration 0 never feeds the logarithm
(the guard takes the 0 branch) and its mapped x position is exactly the
centre value 0, on both sides of the diagram. -/
theorem C7_zero_maps_to_center (rs : List CanonRow) (ttl : String) :
    ∀ tr ∈ (stiff_plot rs ttl).traces, ∀ pr ∈ tr.x.zip tr.customdata,
      pr.2.2 = some 0 → pr.1 = 0 :=
  fun tr htr pr hpr h0 =>
    trace_x_center rs ttl tr htr pr hpr (Or.inr ⟨0, h0, le_refl 0⟩)

/-- C7 witness: the single cation record with concentration 0 is placed at
x = 0. -/
theorem C7_zero_maps_to_center_witness : -distOf (some (0 : ℚ)) = 0 :=
  C7_zero_maps_to_center [⟨"Na", "cation", some 0⟩] "t"
    (catTraceOf [⟨"Na", "cation", some 0⟩]) (List.Mem.head _)
    (-distOf (some 0), ("Na", some 0)) (List.Mem.head _) rfl

/-- C9: a plotted record whose equivalent concentration is negative
(negatives pass through `normalize` unclamped) or NaN is still assigned
horizontal magnitude exactly 0, with no error raised: the guarded branch
makes the `log10` result irrelevant for all non-positive and NaN inputs. -/
theorem C9_negative_nan_guard (rs : List CanonRow) (ttl : String) :
    (∀ tr ∈ (stiff_plot rs ttl).traces, ∀ pr ∈ tr.x.zip tr.customdata,
      (pr.2.2 = none ∨ ∃ q, pr.2.2 = some q ∧ q < 0) → pr.1 = 0) ∧
    (∀ q : ℚ, q < 0 → toNumericCoerce (.num q) = some q) := by
  refine ⟨?_, fun q _ => rfl⟩
  intro tr htr pr hpr h0
  refine trace_x_center rs ttl tr htr pr hpr ?_
  rcases h0 with h | ⟨q, hq, hq2⟩
  · exact Or.inl h
  · exact Or.inr ⟨q, hq, le_of_lt hq2⟩

/-- C9 witness: a record with negative concentration −3 is placed at
x = 0 on the anion side. -/
theorem C9_negative_nan_guard_witness : distOf (some (-3 : ℚ)) = 0 :=
  (C9_negative_nan_guard [⟨"Cl", "anion", some (-3)⟩] "t").1
    (aniTraceOf [⟨"Cl", "anion", some (-3)⟩])
    (List.Mem.tail _ (List.Mem.head _))
    (distOf (some (-3)), ("Cl", some (-3))) (List.Mem.head _)
    (Or.inr ⟨-3, rfl, by norm_num⟩)

/-! ## C8 -/

/-- C8: every plotted point's vertical position is the fixed rank of its
ion — Na 8, Ca 7, Mg 6, Fe 5 on the cation side and Cl 8, HCO3 7, SO4 6,
CO3 5 on the anion side — a function of the ion identity alone, for every
input (any row order, any concentrations, any subset of ions). -/
theorem C8_fixed_ranks (rs : List CanonRow) (ttl : String) :
    (stiff_plot rs ttl).traces = [catTraceOf rs, aniTraceOf rs] ∧
    (∀ pr ∈ (catTraceOf rs).y.zip (catTraceOf rs).customdata, pr.1 = y_left pr.2.1) ∧
    (∀ pr ∈ (aniTraceOf rs).y.zip (aniTraceOf rs).customdata, pr.1 = y_right pr.2.1) ∧
    y_left "Na" = 8 ∧ y_left "Ca" = 7 ∧ y_left "Mg" = 6 ∧ y_left "Fe" = 5 ∧
    y_right "Cl" = 8 ∧ y_right "HCO3" = 7 ∧ y_right "SO4" = 6 ∧ y_right "CO3" = 5 := by
  refine ⟨rfl, ?_, ?_, rfl, rfl, rfl, rfl, rfl, rfl, rfl, rfl⟩
  · intro pr hpr
    rw [show (catTraceOf rs).y.zip (catTraceOf rs).customdata
        = (catSorted rs).map (fun r => (y_left r.ion, (r.ion, r.meqL)))
      from List.zip_map' _ _ _] at hpr
    obtain ⟨r, hr, rfl⟩ := List.mem_map.mp hpr
    rfl
  · intro pr hpr
    rw [show (aniTraceOf rs).y.zip (aniTraceOf rs).customdata
        = (aniSorted rs).map (fun r => (y_right r.ion, (r.ion, r.meqL)))
      from List.zip_map' _ _ _] at hpr
    obtain ⟨r, hr, rfl⟩ := List.mem_map.mp hpr
    rfl

/-- C8 witness: the `Na` point of a concrete input sits at rank
`y_left "Na" = 8`. -/
theorem C8_fixed_ranks_witness :
    ((8 : ℚ), (("Na" : String), some (3 : ℚ))).1 = y_left "Na" ∧ y_left "Na" = 8 := by
  have h := C8_fixed_ranks [⟨"Na", "cation", some 3⟩] "t"
  exact ⟨h.2.1 (8, ("Na", some 3)) (List.Mem.head _), h.2.2.2.1⟩

/-! ## C10 -/

/-- C2 (amended): the scene's line assembly is two separate polylines, one
per side — the cation trace visits every cation point in rank order and
the anion trace every anion point in rank order — with hover metadata for
exactly the actual points; there is no synthetic centre vertex and no
placeholder hover entry. -/
theorem C2_line_assembly (rs : List CanonRow) (ttl : String) :
    (stiff_plot rs ttl).traces = [catTraceOf rs, aniTraceOf rs] ∧
    (catTraceOf rs).name = "Cationes" ∧ (aniTraceOf rs).name = "Aniones" ∧
    (catTraceOf rs).customdata = (catSorted rs).map (fun r => (r.ion, r.meqL)) ∧
    (aniTraceOf rs).customdata = (aniSorted rs).map (fun r => (r.ion, r.meqL)) ∧
    (catTraceOf rs).x.length = (catTraceOf rs).customdata.length ∧
    (aniTraceOf rs).x.length = (aniTraceOf rs).customdata.length ∧
    (catSorted rs).Perm (catSel rs) ∧
    (aniSorted rs).Perm (aniSel rs) ∧
    (catSorted rs).Pairwise (fun a b => rankIn CAT_ORDER a.ion ≤ rankIn CAT_ORDER b.ion) ∧
    (aniSorted rs).Pairwise (fun a b => rankIn ANI_ORDER a.ion ≤ rankIn ANI_ORDER b.ion) :=
  ⟨rfl, rfl, rfl, rfl, rfl,
    by simp [catTraceOf], by simp [aniTraceOf],
    sortByRank_perm _ _, sortByRank_perm _ _,
    sortByRank_pairwise _ _, sortByRank_pairwise _ _⟩

/-- C2 counterexample: on a two-row input the scene contains two traces,
not the single spec polyline, and no vertex carries a placeholder hover
entry for a centre vertex. -/
theorem C2_cex :
    (stiff_plot [⟨"Na", "cation", some 1⟩, ⟨"Cl", "anion", some 1⟩] "t").traces
      ≠ [specLineAssembly [⟨"Na", "cation", some 1⟩, ⟨"Cl", "anion", some 1⟩]] ∧
    (stiff_plot [⟨"Na", "cation", some 1⟩, ⟨"Cl", "anion", some 1⟩] "t").traces.length = 2 ∧
    (stiff_plot [⟨"Na", "cation", some 1⟩, ⟨"Cl", "anion", some 1⟩] "t").traces.map
        Trace.customdata
      = [[("Na", some 1)], [("Cl", some 1)]] := by
  refine ⟨?_, rfl, rfl⟩
  intro h
  have hlen : (stiff_plot [⟨"Na", "cation", some 1⟩, ⟨"Cl", "anion", some 1⟩] "t").traces.length
      = 2 := rfl
  rw [h] at hlen
  simp at hlen

/-! ## C3 -/

/-- C3 (amended): tick generation computes
`maxDecade = ceil(max |log10 v + 1|)` over the plotted positive
concentrations (1 when there are none) and emits the symmetric integer
tick sequence from `-maxDecade` to `maxDecade` inclusive; the label of
tick 0 is the string `"0"` — not the reference concentration 0.1 — and
the label of every tick `k ≠ 0` is `10^(|k| - 1)`. -/
theorem C3_tick_generation (rs : List CanonRow) (ttl : String) :
    (stiff_plot rs ttl).tickvals = tickvalsOf (maxDec rs) ∧
    (stiff_plot rs ttl).ticktext = (stiff_plot rs ttl).tickvals.map tickLabel ∧
    (posMeq rs ≠ [] →
      maxDec rs = ⌈maxNE ((posMeq rs).map (fun q => |log10 q + 1|))⌉) ∧
    (posMeq rs = [] → maxDec rs = 1) ∧
    (∀ v : ℤ, v ∈ (stiff_plot rs ttl).tickvals ↔ -maxDec rs ≤ v ∧ v ≤ maxDec rs) ∧
    tickLabel 0 = "0" ∧
    (∀ v : ℤ, v ≠ 0 → tickLabel v = gfmtPow10 (v.natAbs - 1)) ∧
    (∀ v : ℤ, tickLabel (-v) = tickLabel v) := by
  refine ⟨rfl, rfl, ?_, ?_, ?_, rfl, ?_, ?_⟩
  · intro h
    rw [maxDec, if_neg h]
  · intro h
    rw [maxDec, if_pos h]
  · intro v
    exact mem_intRange
  · intro v hv
    rw [tickLabel, if_neg hv]
  · intro v
    by_cases hv : v = 0
    · subst hv
      rfl
    · rw [tickLabel, tickLabel, if_neg (neg_ne_zero.mpr hv), if_neg hv, Int.natAbs_neg]

/-- C3 witness: the maxDecade formula and the off-centre label formula at
the concrete input with a single 10 meq/L cation. -/
theorem C3_tick_generation_witness :
    posMeq [⟨"Na", "cation", some 10⟩] ≠ [] ∧
    maxDec [⟨"Na", "cation", some 10⟩]
      = ⌈maxNE ((posMeq [⟨"Na", "cation", some 10⟩]).map (fun q => |log10 q + 1|))⌉ ∧
    tickLabel 1 = gfmtPow10 ((1 : ℤ).natAbs - 1) := by
  have h := C3_tick_generation [⟨"Na", "cation", some 10⟩] "t"
  exact ⟨by decide, h.2.2.1 (by decide), h.2.2.2.2.2.2.1 1 (by decide)⟩

/-- C3 counterexample: with a single 10 meq/L cation the code emits ticks
−2 … 2 labelled `10, 1, 0, 1, 10`: the centre tick is labelled `"0"`,
not the reference concentration `"0.1"`. -/
theorem C3_cex :
    (stiff_plot [⟨"Na", "cation", some 10⟩] "t").tickvals = [-2, -1, 0, 1, 2] ∧
    (stiff_plot [⟨"Na", "cation", some 10⟩] "t").ticktext = ["10", "1", "0", "1", "10"] ∧
    ("0" : String) ≠ "0.1" := by
  have hp : posMeq [⟨"Na", "cation", some 10⟩] = [10] := rfl
  have hl : log10 10 = 1 := by
    unfold log10
    push_cast
    exact Real.logb_self_eq_one (by norm_num)
  have hm : maxDec [⟨"Na", "cation", some 10⟩] = 2 := by
    rw [maxDec, if_neg (by rw [hp]; simp), hp]
    simp only [List.map_cons, List.map_nil, maxNE, List.foldl_nil, hl]
    norm_num
  have h1 : (stiff_plot [⟨"Na", "cation", some 10⟩] "t").tickvals
      = tickvalsOf (maxDec [⟨"Na", "cation", some 10⟩]) := rfl
  have h2 : (stiff_plot [⟨"Na", "cation", some 10⟩] "t").ticktext
      = (tickvalsOf (maxDec [⟨"Na", "cation", some 10⟩])).map tickLabel := rfl
  refine ⟨?_, ?_, by decide⟩
  · rw [h1, hm]
    decide
  · rw [h2, hm]
    decide

end Hidrolab
